import Mathlib

/-!
Verification development for the loop-detection and local-model concurrency
subsystems of the qwen-code repository.

The loop detector is embedded from
packages/core/src/services/loopDetectionService.ts and the concurrency
manager from packages/core/src/utils/localModelConcurrencyManager.ts.
Strings are modelled as lists of characters, JavaScript numbers as Nat/Int
for integer-valued quantities and as exact rationals for the
moving-average metrics (the float rounding error of the source never
crosses any of the compared thresholds for the values exercised here).
The sha256 fingerprints of the source are modelled as the identity on the
hashed text, i.e. the hash is assumed injective; the source additionally
guards content-chunk collisions with isActualContentMatch, which is kept.
-/

set_option maxRecDepth 40000
set_option linter.unusedVariables false

namespace QwenCode

/-- An exact rational written as an explicit fraction, standing in for a
JavaScript floating-point number. All operations keep the denominator
positive and no value exercised here is large enough for the float
rounding of the source to change any comparison. Kept unnormalized so that
every operation reduces inside the kernel. -/
structure Frac where
  num : Int
  den : Int
deriving DecidableEq

/-- The rational value of a fraction. -/
def Frac.val (a : Frac) : ℚ := (a.num : ℚ) / (a.den : ℚ)

/-- Strict comparison by cross multiplication; correct whenever both
denominators are positive, which every state reached here maintains. -/
def Frac.blt (a b : Frac) : Bool := a.num * b.den < b.num * a.den

/-- Non-strict comparison by cross multiplication, with the same
positivity convention. -/
def Frac.ble (a b : Frac) : Bool := a.num * b.den ≤ b.num * a.den

/-- Exact product of fractions. -/
def Frac.mul (a b : Frac) : Frac := ⟨a.num * b.num, a.den * b.den⟩

/-- Exact sum of fractions. -/
def Frac.add (a b : Frac) : Frac := ⟨a.num * b.den + b.num * a.den, a.den * b.den⟩

/-- Exact difference of fractions. -/
def Frac.sub (a b : Frac) : Frac := ⟨a.num * b.den - b.num * a.den, a.den * b.den⟩

/-- An integer as a fraction. -/
def Frac.ofInt (n : Int) : Frac := ⟨n, 1⟩

/-- The three loop types of telemetry/types.ts used by the service. -/
inductive LoopType where
  | consecutiveIdenticalToolCalls
  | chantingIdenticalSentences
  | llmDetectedLoop
deriving DecidableEq

/-- Backtick character, written via its code point. -/
def backtick : Char := Char.ofNat 96

/-- Double-quote character. -/
def dquote : Char := Char.ofNat 34

/-- Single-quote character. -/
def squote : Char := Char.ofNat 39

/-- The characters matched by the JavaScript regex class \s that can occur
in the ASCII range (the Unicode space characters are omitted; no input
considered here contains them). -/
def jsWhitespace (c : Char) : Bool :=
  c = ' ' || c = '\t' || c = '\n' || c = '\r' || c = Char.ofNat 11 || c = Char.ofNat 12

/-- Scan for non-overlapping triples of backticks, tracking how many
backticks of the current run have been consumed since the last counted
fence; left-to-right non-overlapping matching counts one fence per three
consecutive backticks. -/
def countFencesAux (run : Nat) (l : List Char) : Nat :=
  match l with
  | [] => 0
  | c :: rest =>
    if c = backtick then
      if run = 2 then 1 + countFencesAux 0 rest else countFencesAux (run + 1) rest
    else
      countFencesAux 0 rest

/-- Number of non-overlapping occurrences of three consecutive backticks,
as counted by content.match of the triple-backtick global regex. -/
def countFences (l : List Char) : Nat :=
  countFencesAux 0 l

/-- The suffixes of l that start right after a newline character; together
with l itself these are the positions where the regex alternative of a
caret or a newline can match. -/
def tailsAfterNewline (l : List Char) : List (List Char) :=
  match l with
  | [] => []
  | c :: rest =>
    if c = '\n' then rest :: tailsAfterNewline rest else tailsAfterNewline rest

/-- Characters of the regex class of pipe, plus and minus used by the
table check. -/
def isTableSym (c : Char) : Bool := c = '|' || c = '+' || c = '-'

/-- Body of the table regex at a position where the leading whitespace has
been skipped: either a pipe with another pipe later on the same line, or
three consecutive pipe/plus/minus characters. -/
def tableCore (l : List Char) : Bool :=
  match l with
  | [] => false
  | c :: rest =>
    (c = '|' && (rest.takeWhile (fun d => d ≠ '\n')).contains '|')
    || (isTableSym c &&
        (match rest with
         | d :: e :: _ => isTableSym d && isTableSym e
         | _ => false))

/-- The hasTable test of checkContentLoop. -/
def hasTable (l : List Char) : Bool :=
  (l :: tailsAfterNewline l).any (fun s => tableCore (s.dropWhile jsWhitespace))

/-- Body of the list-item regex after the leading whitespace: the character
class of the source regex is a range from star to plus, so only those two
characters match, followed by whitespace; or digits, a dot and whitespace. -/
def listItemCore (l : List Char) : Bool :=
  (match l with
   | c :: d :: _ => (c = '*' || c = '+') && jsWhitespace d
   | _ => false)
  ||
  (let ds := l.takeWhile Char.isDigit
   !ds.isEmpty &&
   (match l.drop ds.length with
    | c :: d :: _ => c = '.' && jsWhitespace d
    | _ => false))

/-- The hasListItem test of checkContentLoop. -/
def hasListItem (l : List Char) : Bool :=
  (l :: tailsAfterNewline l).any (fun s => listItemCore (s.dropWhile jsWhitespace))

/-- The hasHeading test: at a line start, one or more hash characters
followed by whitespace (no leading whitespace is allowed by the regex). -/
def hasHeading (l : List Char) : Bool :=
  (l :: tailsAfterNewline l).any (fun s =>
    let hs := s.takeWhile (fun c => c = '#')
    !hs.isEmpty &&
    (match s.drop hs.length with
     | c :: _ => jsWhitespace c
     | [] => false))

/-- The hasBlockquote test: at a line start, a greater-than sign followed
by whitespace. -/
def hasBlockquote (l : List Char) : Bool :=
  (l :: tailsAfterNewline l).any (fun s =>
    match s with
    | c :: d :: _ => c = '>' && jsWhitespace d
    | _ => false)

/-- Characters excluded by the character-repetition fast path: the negated
class of hash, minus, star, underscore, equals, whitespace, dot, comma,
single quote, double quote and parentheses. -/
def isRepeatableChar (c : Char) : Bool :=
  !(c = '#' || c = '-' || c = '*' || c = '_' || c = '=' || c = '.'
    || c = ',' || c = squote || c = dquote || c = '(' || c = ')'
    || jsWhitespace c)

/-- True when some repeatable character occurs at least 16 times in a row
(the source pattern is one occurrence followed by 15 or more repeats). -/
def hasCharRun16 (l : List Char) : Bool :=
  match l with
  | [] => false
  | c :: rest =>
    (isRepeatableChar c && rest.take 15 = List.replicate 15 c)
    || hasCharRun16 rest

/-- The star-star-quote unit of the broken-quote pattern. -/
def brokenQuoteUnit : List Char := ['*', '*', dquote]

/-- The broken-quote regex: a group repeated, then the unit, then the group
repeated again, which matches exactly when the unit occurs at least three
times consecutively. -/
def hasBrokenQuotePattern (l : List Char) : Bool :=
  decide (List.IsInfix (brokenQuoteUnit ++ brokenQuoteUnit ++ brokenQuoteUnit) l)

/-- The extremely-dense-content fast path: length above 100 and the quote
count and the star count each above 60 percent of the length. The source
compares count with length times 0.6; over the integers that is five times
the count above three times the length. -/
def densityCheck (l : List Char) : Bool :=
  decide (100 < l.length)
  && decide (3 * l.length < 5 * l.count dquote)
  && decide (3 * l.length < 5 * l.count '*')

/-- hasObviousRepetition of the service, taking the freshly appended
content and the accumulated history (which in the source already contains
the new content when this runs). -/
def hasObviousRepetition (content history : List Char) : Bool :=
  let textsToCheck :=
    [content] ++
      (if history.length ≠ 0 then
        let recentHistory := history.drop (history.length - 300)
        [recentHistory, recentHistory ++ content]
      else [])
  textsToCheck.any (fun t =>
    hasCharRun16 t || hasBrokenQuotePattern t || densityCheck t)

/-- Fixed constants of the service. -/
def TOOL_CALL_LOOP_THRESHOLD : Nat := 5

/-- Content loop threshold of the service. -/
def CONTENT_LOOP_THRESHOLD : Nat := 4

/-- Chunk size of the sliding window. -/
def CONTENT_CHUNK_SIZE : Nat := 20

/-- History cap of the service. -/
def MAX_HISTORY_LENGTH : Nat := 1000

/-- Session state of LoopDetectionService. The telemetry field models the
external telemetry sink receiving logLoopDetected events; it is
append-only and survives reset. The three llm fields and the recovery
counter are carried for completeness, the claims checked here do not
exercise turnStarted. -/
structure LoopState where
  promptId : String
  lastToolCallKey : Option String
  toolCallRepetitionCount : Nat
  streamContentHistory : List Char
  contentStats : List (List Char × List Int)
  lastContentIndex : Nat
  loopDetected : Bool
  inCodeBlock : Bool
  turnsInCurrentPrompt : Nat
  llmCheckInterval : Nat
  lastCheckTurn : Nat
  loopRecoveryAttempts : Nat
  telemetry : List LoopType
deriving DecidableEq

/-- A freshly constructed service. -/
def initLoopState : LoopState where
  promptId := ""
  lastToolCallKey := none
  toolCallRepetitionCount := 0
  streamContentHistory := []
  contentStats := []
  lastContentIndex := 0
  loopDetected := false
  inCodeBlock := false
  turnsInCurrentPrompt := 0
  llmCheckInterval := 3
  lastCheckTurn := 0
  loopRecoveryAttempts := 0
  telemetry := []

/-- getToolCallKey: the source hashes the name, a colon and the JSON of the
arguments with sha256; the hash is modelled as the identity on that key
string. -/
def getToolCallKey (name argsJson : String) : String :=
  name ++ ":" ++ argsJson

/-- checkToolCallLoop of the service. -/
def checkToolCallLoop (name argsJson : String) (s : LoopState) : Bool × LoopState :=
  let key := getToolCallKey name argsJson
  let s :=
    if s.lastToolCallKey = some key then
      { s with toolCallRepetitionCount := s.toolCallRepetitionCount + 1 }
    else
      { s with lastToolCallKey := some key, toolCallRepetitionCount := 1 }
  if TOOL_CALL_LOOP_THRESHOLD ≤ s.toolCallRepetitionCount then
    (true, { s with telemetry := s.telemetry ++ [LoopType.consecutiveIdenticalToolCalls] })
  else
    (false, s)

/-- resetContentTracking; the source's resetHistory parameter is always
left at its default of true, so the history is always cleared. -/
def resetContentTracking (s : LoopState) : LoopState :=
  { s with streamContentHistory := [], contentStats := [], lastContentIndex := 0 }

/-- truncateAndUpdate: drop the front overflow, shift lastContentIndex
(the source clamps with Math.max 0, which is Nat subtraction here), shift
every stored occurrence index, dropping those that become negative and
pruning fingerprints left without occurrences. -/
def truncateAndUpdate (s : LoopState) : LoopState :=
  if s.streamContentHistory.length ≤ MAX_HISTORY_LENGTH then s
  else
    let truncationAmount := s.streamContentHistory.length - MAX_HISTORY_LENGTH
    { s with
      streamContentHistory := s.streamContentHistory.drop truncationAmount,
      lastContentIndex := s.lastContentIndex - truncationAmount,
      contentStats := s.contentStats.filterMap (fun p =>
        let adjustedIndices :=
          (p.2.map (fun i => i - (truncationAmount : Int))).filter
            (fun i => decide ((0 : Int) ≤ i))
        if adjustedIndices.isEmpty then none else some (p.1, adjustedIndices)) }

/-- The 20-character window of the history starting at a given offset
(substring clamps at the end of the string exactly like take). -/
def chunkAt (hist : List Char) (i : Nat) : List Char :=
  (hist.drop i).take CONTENT_CHUNK_SIZE

/-- Lookup in the insertion-ordered map contentStats, keyed by the chunk
text standing in for its sha256. -/
def statsLookup (stats : List (List Char × List Int)) (k : List Char) : Option (List Int) :=
  (stats.find? (fun p => p.1 = k)).map (fun p => p.2)

/-- Map.set on a fresh key appends in insertion order. -/
def statsInsert (stats : List (List Char × List Int)) (k : List Char) (v : List Int) :
    List (List Char × List Int) :=
  stats ++ [(k, v)]

/-- Map.set on an existing key replaces the value in place; keys are
unique by construction so mapping over all entries is the same. -/
def statsSet (stats : List (List Char × List Int)) (k : List Char) (v : List Int) :
    List (List Char × List Int) :=
  stats.map (fun p => if p.1 = k then (p.1, v) else p)

/-- isActualContentMatch: the collision guard comparing the current chunk
with the text at the first recorded index. -/
def isActualContentMatch (hist : List Char) (currentChunk : List Char) (originalIndex : Int) : Bool :=
  chunkAt hist originalIndex.toNat = currentChunk

/-- isLoopDetectedForChunk: record the occurrence and declare a loop when
the chunk has occurred at least four times and the last four occurrences
span at most an average gap of twice the chunk size. Returns the detection
flag and the updated stats. -/
def isLoopDetectedForChunk (hist : List Char) (stats : List (List Char × List Int))
    (chunk : List Char) (idx : Nat) : Bool × List (List Char × List Int) :=
  match statsLookup stats chunk with
  | none => (false, statsInsert stats chunk [(idx : Int)])
  | some existingIndices =>
    if !isActualContentMatch hist chunk (existingIndices.headD 0) then
      (false, stats)
    else
      let appended := existingIndices ++ [(idx : Int)]
      let stats := statsSet stats chunk appended
      if appended.length < CONTENT_LOOP_THRESHOLD then
        (false, stats)
      else
        let recentIndices := appended.drop (appended.length - CONTENT_LOOP_THRESHOLD)
        let totalDistance : Int := recentIndices.getLastD 0 - recentIndices.headD 0
        let averageDistance : Frac := ⟨totalDistance, (CONTENT_LOOP_THRESHOLD : Int) - 1⟩
        let maxAllowedDistance : Frac := Frac.ofInt ((CONTENT_CHUNK_SIZE : Int) * 2)
        (averageDistance.ble maxAllowedDistance, stats)

/-- The sliding-window walk of analyzeContentChunksForLoop over the yet
unscanned part of the history; returns the detection flag, the stats and
the final lastContentIndex (not advanced past a detected chunk, as in the
source). -/
def analyzeChunksAux (fuel : Nat) (hist : List Char) (stats : List (List Char × List Int))
    (idx : Nat) : Bool × List (List Char × List Int) × Nat :=
  match fuel with
  | 0 => (false, stats, idx)
  | fuel + 1 =>
    if idx + CONTENT_CHUNK_SIZE ≤ hist.length then
      let chunk := chunkAt hist idx
      let r := isLoopDetectedForChunk hist stats chunk idx
      if r.1 then (true, r.2, idx)
      else analyzeChunksAux fuel hist r.2 (idx + 1)
    else
      (false, stats, idx)

/-- The loop of analyzeContentChunksForLoop: the index grows by one per
iteration and the loop stops once the window no longer fits, so a fuel of
the remaining history length is always enough and the fuel-exhausted
branch is unreachable. -/
def analyzeChunks (hist : List Char) (stats : List (List Char × List Int)) (idx : Nat) :
    Bool × List (List Char × List Int) × Nat :=
  analyzeChunksAux (hist.length + 1 - idx) hist stats idx

/-- analyzeContentChunksForLoop, emitting the chanting telemetry event on
detection. -/
def analyzeContentChunksForLoop (s : LoopState) : Bool × LoopState :=
  let r := analyzeChunks s.streamContentHistory s.contentStats s.lastContentIndex
  let s := { s with contentStats := r.2.1, lastContentIndex := r.2.2 }
  if r.1 then
    (true, { s with telemetry := s.telemetry ++ [LoopType.chantingIdenticalSentences] })
  else
    (false, s)

/-- The tail of checkContentLoop past the code-fence skip: append the
chunk to the history, run the fast-path repetition check (which returns
before truncating), then truncate and analyze. -/
def checkContentLoopCore (content : List Char) (s : LoopState) : Bool × LoopState :=
  let s := { s with streamContentHistory := s.streamContentHistory ++ content }
  if hasObviousRepetition content s.streamContentHistory then
    (true, s)
  else
    analyzeContentChunksForLoop (truncateAndUpdate s)

/-- checkContentLoop of the service: structural-marker reset, code-fence
parity skip, then the append, fast-path check, truncation and chunk
analysis of the core. -/
def checkContentLoop (content : List Char) (s : LoopState) : Bool × LoopState :=
  let numFences := countFences content
  let resetNeeded :=
    numFences ≠ 0 || hasTable content || hasListItem content
      || hasHeading content || hasBlockquote content
  let s := if resetNeeded then resetContentTracking s else s
  let wasInCodeBlock := s.inCodeBlock
  let s := { s with inCodeBlock := if numFences % 2 = 0 then s.inCodeBlock else !s.inCodeBlock }
  if wasInCodeBlock || s.inCodeBlock then
    (false, s)
  else
    checkContentLoopCore content s

/-- The stream events addAndCheck inspects: tool-call requests carry the
tool name and the serialized arguments, content events carry text; every
other event type falls into the default branch. -/
inductive StreamEvent where
  | toolCallRequest (name argsJson : String)
  | content (text : List Char)
  | other
deriving DecidableEq

/-- addAndCheck of the service: sticky short-circuit once a loop was
detected, content tracking reset on tool calls, and dispatch on the event
type. -/
def addAndCheck (ev : StreamEvent) (s : LoopState) : Bool × LoopState :=
  if s.loopDetected then (true, s)
  else
    match ev with
    | StreamEvent.toolCallRequest name argsJson =>
      let s := resetContentTracking s
      let r := checkToolCallLoop name argsJson s
      (r.1, { r.2 with loopDetected := r.1 })
    | StreamEvent.content text =>
      let r := checkContentLoop text s
      (r.1, { r.2 with loopDetected := r.1 })
    | StreamEvent.other => (s.loopDetected, s)

/-- reset of the service: clears the tool-call tracker, content tracking,
llm scheduling state, the sticky flag and the recovery counter. The
inCodeBlock flag is not touched by the source's reset, and the telemetry
already emitted naturally remains with the sink. -/
def reset (promptId : String) (s : LoopState) : LoopState :=
  { s with
    promptId := promptId
    lastToolCallKey := none
    toolCallRepetitionCount := 0
    streamContentHistory := []
    contentStats := []
    lastContentIndex := 0
    turnsInCurrentPrompt := 0
    llmCheckInterval := 3
    lastCheckTurn := 0
    loopDetected := false
    loopRecoveryAttempts := 0 }

/-- Feed a list of stream events one after the other, collecting the
boolean returned for each event and the final state. -/
def runEvents (evs : List StreamEvent) (s : LoopState) : List Bool × LoopState :=
  match evs with
  | [] => ([], s)
  | e :: rest =>
    let r := addAndCheck e s
    let rr := runEvents rest r.2
    (r.1 :: rr.1, rr.2)

/-! The local-model concurrency manager. -/

/-- ConcurrencyConfig of localModelConcurrencyManager.ts. -/
structure ConcurrencyConfig where
  maxConcurrentRequests : Nat
  queueTimeout : Int
  adaptiveThrottling : Bool
deriving DecidableEq

/-- A queued request descriptor; the resolve/reject closures and the
stored request function are modelled by the event log and the step
functions below. -/
structure RequestQueueItem where
  id : String
  startTime : Int
deriving DecidableEq

/-- Performance metrics of the manager; the two moving averages are exact
fractions standing in for the source's floating-point numbers. -/
structure PerformanceMetrics where
  averageResponseTime : Frac
  errorRate : Frac
  queueWaitTimes : List Int
deriving DecidableEq

/-- Externally observable promise and execution events of one manager:
a request's stored function starting to execute (executeRequestAsync),
its promise resolving, or its promise rejecting with a message. -/
inductive CMEvent where
  | workStarted (id : String)
  | promiseResolved (id : String)
  | promiseRejected (id : String) (message : String)
deriving DecidableEq

/-- Full state of a LocalModelConcurrencyManager together with the log of
the externally observable events it has produced. activeRequests models
the Set with an insertion-ordered duplicate-free list. -/
structure CMState where
  activeRequests : List String
  requestQueue : List RequestQueueItem
  config : ConcurrencyConfig
  performanceMetrics : PerformanceMetrics
  eventLog : List CMEvent
deriving DecidableEq

/-- A freshly constructed manager. -/
def initCMState (config : ConcurrencyConfig) : CMState where
  activeRequests := []
  requestQueue := []
  config := config
  performanceMetrics := { averageResponseTime := Frac.ofInt 0, errorRate := Frac.ofInt 0, queueWaitTimes := [] }
  eventLog := []

/-- getEffectiveConcurrencyLimit: the Math.floor of baseLimit times 0.5
(resp. 0.7) over the naturals is baseLimit divided by 2 (resp. 7 times
baseLimit divided by 10); the floats of the source round to the same
integers throughout the representable range. -/
def getEffectiveConcurrencyLimit (config : ConcurrencyConfig) (m : PerformanceMetrics) : Nat :=
  if !config.adaptiveThrottling then config.maxConcurrentRequests
  else
    let baseLimit := config.maxConcurrentRequests
    if Frac.blt ⟨2, 10⟩ m.errorRate then max 1 (baseLimit / 2)
    else if Frac.blt (Frac.ofInt 30000) m.averageResponseTime then max 1 (7 * baseLimit / 10)
    else baseLimit

/-- updatePerformanceMetrics: the error rate moves by a weight of one
twentieth on every completion and the average response time by a weight of
one tenth on successful completions with a positive response time. -/
def updatePerformanceMetrics (m : PerformanceMetrics) (responseTime : Int) (isError : Bool) :
    PerformanceMetrics :=
  let errorWeight : Frac := ⟨1, 20⟩
  let m := { m with
    errorRate := (m.errorRate.mul ((Frac.ofInt 1).sub errorWeight)).add
      (if isError then errorWeight else Frac.ofInt 0) }
  if !isError && decide (0 < responseTime) then
    let timeWeight : Frac := ⟨1, 10⟩
    { m with
      averageResponseTime := (m.averageResponseTime.mul ((Frac.ofInt 1).sub timeWeight)).add
        ((Frac.ofInt responseTime).mul timeWeight) }
  else m

/-- recordSuccess of the manager. -/
def recordSuccess (m : PerformanceMetrics) (responseTime : Int) : PerformanceMetrics :=
  updatePerformanceMetrics m responseTime false

/-- recordError of the manager. -/
def recordError (m : PerformanceMetrics) : PerformanceMetrics :=
  updatePerformanceMetrics m 0 true

/-- Set.add keeps insertion order and ignores duplicates. -/
def setAdd (l : List String) (x : String) : List String :=
  if x ∈ l then l else l ++ [x]

/-- removeActiveRequest: Set.delete. -/
def removeActiveRequest (s : CMState) (id : String) : CMState :=
  { s with activeRequests := s.activeRequests.erase id }

/-- removeFromQueue: findIndex plus splice removes the first queue entry
with the given id. -/
def removeFromQueue (s : CMState) (id : String) : CMState :=
  { s with requestQueue := s.requestQueue.eraseP (fun item => item.id == id) }

/-- One pass of the processQueue while loop, with a fuel argument for
structural recursion; every iteration shifts one item off the queue, so a
fuel of the queue length covers the whole loop and the fuel-exhausted
branch is unreachable from processQueue. -/
def processQueueAux (fuel : Nat) (now : Int) (s : CMState) : CMState :=
  match fuel with
  | 0 => s
  | fuel + 1 =>
    match s.requestQueue with
    | [] => s
    | queueItem :: rest =>
      if s.activeRequests.length < getEffectiveConcurrencyLimit s.config s.performanceMetrics then
        let queueWaitTime := now - queueItem.startTime
        let waits := s.performanceMetrics.queueWaitTimes ++ [queueWaitTime]
        let waits := if 100 < waits.length then waits.drop 1 else waits
        processQueueAux fuel now
          { s with
            requestQueue := rest
            activeRequests := setAdd s.activeRequests queueItem.id
            performanceMetrics := { s.performanceMetrics with queueWaitTimes := waits }
            eventLog := s.eventLog ++ [CMEvent.workStarted queueItem.id] }
      else s

/-- processQueue: admit queued items in FIFO order while the active count
is below the effective limit, recording each admitted item's queue wait
time (keeping only the last 100 samples) and starting its stored request
function. -/
def processQueue (now : Int) (s : CMState) : CMState :=
  processQueueAux s.requestQueue.length now s

/-- The wrapped reject closure built inside executeRequest: remove the id
from the active set, record an error, reject the promise with the message
and re-run the dispatcher. -/
def rejectItem (id message : String) (now : Int) (s : CMState) : CMState :=
  let s := removeActiveRequest s id
  let s := { s with performanceMetrics := recordError s.performanceMetrics }
  let s := { s with eventLog := s.eventLog ++ [CMEvent.promiseRejected id message] }
  processQueue now s

/-- The wrapped resolve closure built inside executeRequest; the elapsed
time between the item's startTime and Date.now is passed in as the
response time. -/
def resolveItem (id : String) (responseTime : Int) (now : Int) (s : CMState) : CMState :=
  let s := removeActiveRequest s id
  let s := { s with performanceMetrics := recordSuccess s.performanceMetrics responseTime }
  let s := { s with eventLog := s.eventLog ++ [CMEvent.promiseResolved id] }
  processQueue now s

/-- executeRequest up to its first suspension: push the descriptor onto
the queue and run the dispatcher. -/
def stepEnqueue (id : String) (now : Int) (s : CMState) : CMState :=
  processQueue now { s with requestQueue := s.requestQueue ++ [{ id := id, startTime := now }] }

/-- An admitted request's work resolving: executeRequestAsync calls the
wrapped resolve. -/
def stepCompleteSuccess (id : String) (responseTime : Int) (now : Int) (s : CMState) : CMState :=
  resolveItem id responseTime now s

/-- An admitted request's work throwing: executeRequestAsync normalizes
the thrown value into an Error and calls the wrapped reject. -/
def stepCompleteError (id message : String) (now : Int) (s : CMState) : CMState :=
  rejectItem id message now s

/-- The queue timeout firing for a still-queued item: remove it from the
queue, then the wrapped reject runs. -/
def stepTimeout (id : String) (now : Int) (s : CMState) : CMState :=
  rejectItem id ("Request " ++ id ++ " timed out in queue after "
    ++ toString s.config.queueTimeout ++ "ms") now (removeFromQueue s id)

/-- The abort listener firing: clear the timer, remove the item from the
queue and the active set, then the wrapped reject runs. -/
def stepAbort (id : String) (now : Int) (s : CMState) : CMState :=
  rejectItem id "Request was aborted" now (removeActiveRequest (removeFromQueue s id) id)

/-- The forEach of clearQueue over the live queue array: the callback is
invoked for each index below the initial length that still exists in the
current array, and the rejection it performs re-runs the dispatcher, which
shifts items off the same array. The remaining count stands for the
distance from the current index to the initial length. -/
def clearQueueAux (now : Int) (remaining : Nat) (i : Nat) (s : CMState) : CMState :=
  match remaining with
  | 0 => { s with requestQueue := [] }
  | r + 1 =>
    if hlt : i < s.requestQueue.length then
      clearQueueAux now r (i + 1)
        (rejectItem (s.requestQueue.get ⟨i, hlt⟩).id "Request queue cleared" now s)
    else
      clearQueueAux now r (i + 1) s

/-- clearQueue of the manager: reject every entry of the queue array with
the fixed error, then replace the queue with a fresh empty array. -/
def clearQueue (now : Int) (s : CMState) : CMState :=
  clearQueueAux now s.requestQueue.length 0 s

/-- updateConfig with a Partial of the config: absent fields keep their
current values. -/
def stepUpdateConfig (maxConcurrent : Option Nat) (queueTimeout : Option Int)
    (adaptiveThrottling : Option Bool) (s : CMState) : CMState :=
  { s with config :=
    { maxConcurrentRequests := maxConcurrent.getD s.config.maxConcurrentRequests
      queueTimeout := queueTimeout.getD s.config.queueTimeout
      adaptiveThrottling := adaptiveThrottling.getD s.config.adaptiveThrottling } }

/-- The states a LocalModelConcurrencyManager can reach: any constructor
config, then any interleaving of public calls and completion callbacks.
Work can only complete for an admitted (active) request and the queue
timeout can only fire for an item still in the queue, because admission
and abort clear its timer. -/
inductive Reachable : CMState → Prop where
  | init (config : ConcurrencyConfig) : Reachable (initCMState config)
  | enqueue {s : CMState} (id : String) (now : Int) :
      Reachable s → Reachable (stepEnqueue id now s)
  | completeSuccess {s : CMState} (id : String) (responseTime now : Int) :
      Reachable s → id ∈ s.activeRequests → Reachable (stepCompleteSuccess id responseTime now s)
  | completeError {s : CMState} (id message : String) (now : Int) :
      Reachable s → id ∈ s.activeRequests → Reachable (stepCompleteError id message now s)
  | timeoutFires {s : CMState} (id : String) (now : Int) :
      Reachable s → id ∈ s.requestQueue.map RequestQueueItem.id →
      Reachable (stepTimeout id now s)
  | abortFires {s : CMState} (id : String) (now : Int) :
      Reachable s → Reachable (stepAbort id now s)
  | clearQueueCalled {s : CMState} (now : Int) :
      Reachable s → Reachable (clearQueue now s)
  | updateConfigCalled {s : CMState} (maxConcurrent : Option Nat) (queueTimeout : Option Int)
      (adaptiveThrottling : Option Bool) :
      Reachable s → Reachable (stepUpdateConfig maxConcurrent queueTimeout adaptiveThrottling s)

/-- The states reachable without updateConfig calls, from a manager
constructed with the given config. -/
inductive ReachableSteady (config : ConcurrencyConfig) : CMState → Prop where
  | init : ReachableSteady config (initCMState config)
  | enqueue {s : CMState} (id : String) (now : Int) :
      ReachableSteady config s → ReachableSteady config (stepEnqueue id now s)
  | completeSuccess {s : CMState} (id : String) (responseTime now : Int) :
      ReachableSteady config s → id ∈ s.activeRequests →
      ReachableSteady config (stepCompleteSuccess id responseTime now s)
  | completeError {s : CMState} (id message : String) (now : Int) :
      ReachableSteady config s → id ∈ s.activeRequests →
      ReachableSteady config (stepCompleteError id message now s)
  | timeoutFires {s : CMState} (id : String) (now : Int) :
      ReachableSteady config s → id ∈ s.requestQueue.map RequestQueueItem.id →
      ReachableSteady config (stepTimeout id now s)
  | abortFires {s : CMState} (id : String) (now : Int) :
      ReachableSteady config s → ReachableSteady config (stepAbort id now s)
  | clearQueueCalled {s : CMState} (now : Int) :
      ReachableSteady config s → ReachableSteady config (clearQueue now s)

/-- isLocalModel of errorHandlingScenarios.test.ts: URL patterns that
indicate a local deployment. -/
def localPatterns : List (List Char) :=
  ["localhost", "127.0.0.1", "0.0.0.0", "192.168.", "10.0.", "172.16.",
   "local", ":1234", ":8080", ":11434", ":8000"].map String.data

/-- Model-name substrings that indicate a locally hosted model family. -/
def localModelPatterns : List (List Char) :=
  ["local", "ollama", "llama", "mistral", "qwen", "codellama", "vicuna", "alpaca"].map String.data

/-- JavaScript string-or: an undefined or empty string falls through to
the next alternative. -/
def jsStringOr (a : Option String) (b : String) : String :=
  match a with
  | some s => if s = "" then b else s
  | none => b

/-- Substring containment as a Bool. -/
def containsSub (pat hay : List Char) : Bool :=
  decide (List.IsInfix pat hay)

/-- isLocalModel: local when the effective base URL (the argument, else
the OPENAI_BASE_URL environment variable, else empty) contains a local
URL pattern, or when the given model name contains a local model family
substring. The toLowerCase of the source is ASCII lowercasing here, which
agrees on every pattern and input considered. -/
def isLocalModel (baseUrl model envOpenaiBaseUrl : Option String) : Bool :=
  let openaiBaseUrl := jsStringOr baseUrl (jsStringOr envOpenaiBaseUrl "")
  let lowered := openaiBaseUrl.data.map Char.toLower
  let isLocalUrl := localPatterns.any (fun p => containsSub p lowered)
  let isLocalModelName :=
    match model with
    | none => false
    | some m =>
      if m = "" then false
      else localModelPatterns.any (fun p => containsSub p (m.data.map Char.toLower))
  isLocalUrl || isLocalModelName

/-! Concrete inputs and states used by the theorems below. -/

/-- The 20-character test string of the spec scenario. -/
def s20 : List Char := "abcdefghijklmnopqrst".data

/-- A single oversized content chunk: 1001 repeated letters. -/
def qOverflow : List Char := List.replicate 1001 'q'

/-- A complete fenced code block, opening fence, 16 repeated letters and
closing fence, delivered as one content chunk. -/
def fencedBlockWithRun : List Char := "```\n".data ++ List.replicate 16 'q' ++ "\n```".data

/-- Adaptive config with a ceiling of four. -/
def cfgC3 : ConcurrencyConfig :=
  { maxConcurrentRequests := 4, queueTimeout := 120000, adaptiveThrottling := true }

/-- Nine requests are submitted, the first four are admitted, and then the
five admitted requests fail one after the other; the fifth failure pushes
the error rate over the throttling threshold while four requests are
admitted, three of which remain active after the failing one is removed. -/
def cexC3State : CMState :=
  stepCompleteError "r5" "boom" 0 <|
  stepCompleteError "r4" "boom" 0 <|
  stepCompleteError "r3" "boom" 0 <|
  stepCompleteError "r2" "boom" 0 <|
  stepCompleteError "r1" "boom" 0 <|
  stepEnqueue "r9" 0 <| stepEnqueue "r8" 0 <| stepEnqueue "r7" 0 <|
  stepEnqueue "r6" 0 <| stepEnqueue "r5" 0 <| stepEnqueue "r4" 0 <|
  stepEnqueue "r3" 0 <| stepEnqueue "r2" 0 <| stepEnqueue "r1" 0 <|
  initCMState cfgC3

/-- A config that admits nothing, so that requests pile up in the queue. -/
def cfgC8 : ConcurrencyConfig :=
  { maxConcurrentRequests := 0, queueTimeout := 120000, adaptiveThrottling := false }

/-- Three requests queued while nothing can be admitted, then the limit is
raised through updateConfig without a dispatch, leaving a state with an
empty active set, three queued requests and room to admit. -/
def preC8 : CMState :=
  stepUpdateConfig (some 10) none none <|
  stepEnqueue "c" 0 <| stepEnqueue "b" 0 <| stepEnqueue "a" 0 <|
  initCMState cfgC8

/-- A minimal config for instantiating the amended concurrency theorems. -/
def cfgW3 : ConcurrencyConfig :=
  { maxConcurrentRequests := 1, queueTimeout := 1000, adaptiveThrottling := true }

/-- A state for instantiating the amended clearQueue theorem: one active
request, one queued request, a full effective limit. -/
def sW8 : CMState where
  activeRequests := ["a"]
  requestQueue := [{ id := "b", startTime := 0 }]
  config := { maxConcurrentRequests := 1, queueTimeout := 1000, adaptiveThrottling := true }
  performanceMetrics := { averageResponseTime := Frac.ofInt 0, errorRate := Frac.ofInt 0, queueWaitTimes := [] }
  eventLog := []

/-- A state for instantiating the truncation theorem: 1001 characters of
history and one fingerprint with two recorded occurrences. -/
def sW5 : LoopState :=
  { initLoopState with
    streamContentHistory := List.replicate 1001 'a'
    contentStats := [(List.replicate 20 'a', [0, 500])] }

/-- What a correct truncation means for a state above the cap: the stats
are exactly the old stats with every occurrence index shifted down by the
truncation amount, indices that became negative dropped and fingerprints
left without occurrences pruned; and every surviving index is a valid
in-bounds offset that addresses the same 20-character window of the
truncated buffer that its unshifted original addressed in the old buffer. -/
def truncationCorrect (s : LoopState) : Prop :=
  let truncationAmount := s.streamContentHistory.length - MAX_HISTORY_LENGTH
  let s' := truncateAndUpdate s
  (s'.contentStats = s.contentStats.filterMap (fun p =>
      let adjustedIndices :=
        (p.2.map (fun i => i - (truncationAmount : Int))).filter
          (fun i => decide ((0 : Int) ≤ i))
      if adjustedIndices.isEmpty then none else some (p.1, adjustedIndices)))
  ∧ ∀ p ∈ s'.contentStats, ∀ j ∈ p.2,
      0 ≤ j
      ∧ j.toNat + CONTENT_CHUNK_SIZE ≤ s'.streamContentHistory.length
      ∧ chunkAt s'.streamContentHistory j.toNat
          = chunkAt s.streamContentHistory (j.toNat + truncationAmount)

/-- The effective concurrency limit as the specification states it, over
real arithmetic: with adaptive throttling, half the ceiling (floored, at
least one) when the error rate exceeds 0.2, else 0.7 times the ceiling
(floored, at least one) when the average response time exceeds 30000
milliseconds, else the full ceiling; without adaptive throttling always
the full ceiling. -/
def specEffectiveConcurrencyLimit (config : ConcurrencyConfig) (m : PerformanceMetrics) : Nat :=
  if config.adaptiveThrottling then
    if (0.2 : ℚ) < m.errorRate.val then
      max 1 (Nat.floor ((config.maxConcurrentRequests : ℚ) * 0.5))
    else if (30000 : ℚ) < m.averageResponseTime.val then
      max 1 (Nat.floor ((config.maxConcurrentRequests : ℚ) * 0.7))
    else config.maxConcurrentRequests
  else config.maxConcurrentRequests

/-!
Theorems. Each claim of the specification gets one theorem below, with
counterexample and witness theorems where applicable.
-/

/-- Claim C2: feeding the 20-character string four times as consecutive
content events from a fresh reset makes the detector return false three
times and true on the fourth event, with the chanting loop type reported
to telemetry; feeding it only three times leaves every call returning
false. -/
theorem contentLoop_s20_four_times :
    ((runEvents (List.replicate 4 (StreamEvent.content s20)) (reset "p1" initLoopState)).1
        = [false, false, false, true]
      ∧ LoopType.chantingIdenticalSentences ∈
        (runEvents (List.replicate 4 (StreamEvent.content s20)) (reset "p1" initLoopState)).2.telemetry)
    ∧ (runEvents (List.replicate 3 (StreamEvent.content s20)) (reset "p1" initLoopState)).1
        = [false, false, false] := by
  decide

/-- Claim C4, counterexample: a single 1001-character content event with
an obvious character run is appended to the history and reported as a loop
before the truncation step runs, leaving the history above the
1000-character cap after addAndCheck returns. -/
theorem contentHistory_cap_counterexample :
    (addAndCheck (StreamEvent.content qOverflow) (reset "p" initLoopState)).1 = true
    ∧ 1000 <
      (addAndCheck (StreamEvent.content qOverflow) (reset "p" initLoopState)).2.streamContentHistory.length := by
  decide

/-- Claim C6, counterexample: a stream consisting of one content event
that carries a complete well-formed fenced code block with a repetitive
interior returns true, because the even fence count leaves the
code-block flag off for the whole chunk and the fast-path repetition
check fires on it. -/
theorem codeBlock_counterexample :
    (addAndCheck (StreamEvent.content fencedBlockWithRun) (reset "p" initLoopState)).1 = true := by
  decide

/-- Claim C9: the backend classifier marks a loopback URL with a local
model name as local, a cloud URL with a cloud model name as not local, and
a cloud URL with a local model-family name as local, for any value of the
environment override (unused because the URL argument is nonempty). -/
theorem isLocalModel_scenarios (env : Option String) :
    isLocalModel (some "http://127.0.0.1:11434") (some "llama3.2:8b") env = true
    ∧ isLocalModel (some "https://api.openai.com") (some "gpt-4") env = false
    ∧ isLocalModel (some "https://api.openai.com") (some "llama-7b") env = true :=
  ⟨rfl, rfl, rfl⟩

/-- Counts of two distinct characters sum to at most the length. -/
theorem count_pair_le_length (a b : Char) (hab : a ≠ b) (l : List Char) :
    l.count a + l.count b ≤ l.length := by
  induction l with
  | nil => simp
  | cons c t ih =>
    have hnot : ¬(c = a ∧ c = b) := fun h => hab (h.1.symm.trans h.2)
    simp only [List.count_cons, List.length_cons, beq_iff_eq]
    by_cases hac : c = a
    · rw [if_pos hac, if_neg (fun hbc => hnot ⟨hac, hbc⟩)]
      omega
    · rw [if_neg hac]
      by_cases hbc : c = b
      · rw [if_pos hbc]
        omega
      · rw [if_neg hbc]
        omega

/-- Claim C10: the double-quote count and the star count of a text can
never both exceed sixty percent of its length, because the two character
classes are disjoint, so the dense-content fast path of
hasObviousRepetition is satisfied by no input at all. -/
theorem densityCheck_never_fires (text : List Char) :
    (5 * text.count dquote ≤ 3 * text.length ∨ 5 * text.count '*' ≤ 3 * text.length)
    ∧ densityCheck text = false := by
  have hsum : text.count dquote + text.count '*' ≤ text.length :=
    count_pair_le_length dquote '*' (by decide) text
  have hdisj : 5 * text.count dquote ≤ 3 * text.length ∨ 5 * text.count '*' ≤ 3 * text.length := by
    omega
  refine ⟨hdisj, ?_⟩
  simp only [densityCheck, Bool.and_eq_false_iff, decide_eq_false_iff_not, not_lt]
  omega

/-- Claim C3, counterexample: a reachable state of the manager in which
the number of active requests strictly exceeds the effective concurrency
limit, because the fifth consecutive failure pushes the error rate over
0.2 and halves the limit while three admitted requests are still in
flight. -/
theorem active_exceeds_effective_limit :
    Reachable cexC3State
    ∧ getEffectiveConcurrencyLimit cexC3State.config cexC3State.performanceMetrics
        < cexC3State.activeRequests.length := by
  constructor
  · have h1 := Reachable.enqueue "r1" 0 (Reachable.init cfgC3)
    have h2 := Reachable.enqueue "r2" 0 h1
    have h3 := Reachable.enqueue "r3" 0 h2
    have h4 := Reachable.enqueue "r4" 0 h3
    have h5 := Reachable.enqueue "r5" 0 h4
    have h6 := Reachable.enqueue "r6" 0 h5
    have h7 := Reachable.enqueue "r7" 0 h6
    have h8 := Reachable.enqueue "r8" 0 h7
    have h9 := Reachable.enqueue "r9" 0 h8
    have e1 := Reachable.completeError "r1" "boom" 0 h9 (by decide)
    have e2 := Reachable.completeError "r2" "boom" 0 e1 (by decide)
    have e3 := Reachable.completeError "r3" "boom" 0 e2 (by decide)
    have e4 := Reachable.completeError "r4" "boom" 0 e3 (by decide)
    exact Reachable.completeError "r5" "boom" 0 e4 (by decide)
  · decide

/-- Claim C8, counterexample: a reachable state with three queued requests
in which clearQueue starts the queued work instead of rejecting it: the
rejection of the first item re-runs the dispatcher, which admits all three
items off the still-populated queue, so the second item is started and
never receives the queue-cleared rejection. -/
theorem clearQueue_admits_queued_work :
    Reachable preC8
    ∧ preC8.requestQueue.map RequestQueueItem.id = ["a", "b", "c"]
    ∧ CMEvent.workStarted "b" ∈ (clearQueue 0 preC8).eventLog
    ∧ decide (CMEvent.promiseRejected "b" "Request queue cleared"
        ∈ (clearQueue 0 preC8).eventLog) = false := by
  refine ⟨?_, by decide, by decide, by decide⟩
  exact Reachable.updateConfigCalled (some 10) none none
    (Reachable.enqueue "c" 0 (Reachable.enqueue "b" 0 (Reachable.enqueue "a" 0
      (Reachable.init cfgC8))))

/-- Cross-multiplied comparison agrees with the rational order when both
denominators are positive. -/
theorem Frac.blt_iff (a b : Frac) (ha : 0 < a.den) (hb : 0 < b.den) :
    Frac.blt a b = true ↔ a.val < b.val := by
  have ha' : (0 : ℚ) < (a.den : ℚ) := by exact_mod_cast ha
  have hb' : (0 : ℚ) < (b.den : ℚ) := by exact_mod_cast hb
  simp only [Frac.blt, Frac.val, decide_eq_true_eq]
  rw [div_lt_div_iff ha' hb']
  exact_mod_cast Iff.rfl

/-- Flooring half of a natural number. -/
theorem floor_half (n : ℕ) : Nat.floor ((n : ℚ) * 0.5) = n / 2 := by
  have h : ((n : ℚ) * 0.5) = ((n : ℕ) : ℚ) / ((2 : ℕ) : ℚ) := by
    push_cast
    ring_nf
  rw [h, Nat.floor_div_nat, Nat.floor_natCast]

/-- Flooring seven tenths of a natural number. -/
theorem floor_seven_tenths (n : ℕ) : Nat.floor ((n : ℚ) * 0.7) = 7 * n / 10 := by
  have h : ((n : ℚ) * 0.7) = ((7 * n : ℕ) : ℚ) / ((10 : ℕ) : ℚ) := by
    push_cast
    ring_nf
  rw [h, Nat.floor_div_nat, Nat.floor_natCast]

/-- Claim C7: with adaptive throttling the effective limit is half the
ceiling (floored, at least one) when the error rate exceeds 0.2, else 0.7
of the ceiling (floored, at least one) when the average response time
exceeds 30000 milliseconds, else the full ceiling, and without adaptive
throttling always the full ceiling. The metric denominators are positive
in every state the manager produces. -/
theorem effectiveLimit_matches_spec (config : ConcurrencyConfig) (m : PerformanceMetrics)
    (hre : 0 < m.errorRate.den) (hrt : 0 < m.averageResponseTime.den) :
    getEffectiveConcurrencyLimit config m = specEffectiveConcurrencyLimit config m := by
  have h02 : Frac.blt ⟨2, 10⟩ m.errorRate = ((0.2 : ℚ) < m.errorRate.val : Bool) := by
    rcases h : (decide ((0.2 : ℚ) < m.errorRate.val) : Bool) with _ | _
    · simp only [decide_eq_false_iff_not] at h
      rcases hblt : Frac.blt ⟨2, 10⟩ m.errorRate with _ | _
      · rfl
      · exfalso
        apply h
        have := (Frac.blt_iff ⟨2, 10⟩ m.errorRate (by norm_num) hre).mp hblt
        have hv : (Frac.val ⟨2, 10⟩) = (0.2 : ℚ) := by
          norm_num [Frac.val]
        rwa [hv] at this
    · simp only [decide_eq_true_eq] at h
      apply (Frac.blt_iff ⟨2, 10⟩ m.errorRate (by norm_num) hre).mpr
      have hv : (Frac.val ⟨2, 10⟩) = (0.2 : ℚ) := by
        norm_num [Frac.val]
      rwa [hv]
  have h30 : Frac.blt (Frac.ofInt 30000) m.averageResponseTime
      = ((30000 : ℚ) < m.averageResponseTime.val : Bool) := by
    rcases h : (decide ((30000 : ℚ) < m.averageResponseTime.val) : Bool) with _ | _
    · simp only [decide_eq_false_iff_not] at h
      rcases hblt : Frac.blt (Frac.ofInt 30000) m.averageResponseTime with _ | _
      · rfl
      · exfalso
        apply h
        have := (Frac.blt_iff (Frac.ofInt 30000) m.averageResponseTime
          (by norm_num [Frac.ofInt]) hrt).mp hblt
        have hv : (Frac.val (Frac.ofInt 30000)) = (30000 : ℚ) := by
          norm_num [Frac.val, Frac.ofInt]
        rwa [hv] at this
    · simp only [decide_eq_true_eq] at h
      apply (Frac.blt_iff (Frac.ofInt 30000) m.averageResponseTime
        (by norm_num [Frac.ofInt]) hrt).mpr
      have hv : (Frac.val (Frac.ofInt 30000)) = (30000 : ℚ) := by
        norm_num [Frac.val, Frac.ofInt]
      rwa [hv]
  unfold getEffectiveConcurrencyLimit specEffectiveConcurrencyLimit
  rcases hA : config.adaptiveThrottling with _ | _
  · simp
  · simp only [Bool.not_true, Bool.false_eq_true, if_false, if_true, h02, h30]
    by_cases he : (0.2 : ℚ) < m.errorRate.val
    · simp [he, floor_half]
    · rw [decide_eq_false he]
      simp only [Bool.false_eq_true, if_false]
      rw [if_neg he]
      by_cases ht : (30000 : ℚ) < m.averageResponseTime.val
      · simp [ht, floor_seven_tenths]
      · simp [ht]

/-- Claim C7, witness: the formula evaluated at the adaptive config with
ceiling four and the initial metrics. -/
theorem effectiveLimit_matches_spec_witness :
    getEffectiveConcurrencyLimit cfgC3 (initCMState cfgC3).performanceMetrics
      = specEffectiveConcurrencyLimit cfgC3 (initCMState cfgC3).performanceMetrics :=
  effectiveLimit_matches_spec cfgC3 (initCMState cfgC3).performanceMetrics
    (by decide) (by decide)

/-- One tool-call event whose key matches the stored key, fed to a
detector that has not yet reported a loop: the repetition count grows by
one, the key stays, and the call returns true exactly when the new count
reaches the threshold of five. -/
theorem addAndCheck_tool_same_key (name argsJson : String) (s : LoopState) (c : Nat)
    (h1 : s.lastToolCallKey = some (getToolCallKey name argsJson))
    (h2 : s.toolCallRepetitionCount = c)
    (hld : s.loopDetected = false) :
    (addAndCheck (StreamEvent.toolCallRequest name argsJson) s).1 = decide (5 ≤ c + 1)
    ∧ (addAndCheck (StreamEvent.toolCallRequest name argsJson) s).2.lastToolCallKey
        = some (getToolCallKey name argsJson)
    ∧ (addAndCheck (StreamEvent.toolCallRequest name argsJson) s).2.toolCallRepetitionCount = c + 1
    ∧ (addAndCheck (StreamEvent.toolCallRequest name argsJson) s).2.loopDetected
        = decide (5 ≤ c + 1) := by
  by_cases hc1 : 5 ≤ c + 1 <;>
    simp [addAndCheck, checkToolCallLoop, resetContentTracking,
      TOOL_CALL_LOOP_THRESHOLD, hld, h1, h2, hc1]

/-- The first tool-call event after a reset: the stored key is fresh, the
count restarts at one, and the call returns false. -/
theorem addAndCheck_tool_fresh (name argsJson promptId : String) (s0 : LoopState) :
    (addAndCheck (StreamEvent.toolCallRequest name argsJson) (reset promptId s0)).1 = false
    ∧ (addAndCheck (StreamEvent.toolCallRequest name argsJson) (reset promptId s0)).2.lastToolCallKey
        = some (getToolCallKey name argsJson)
    ∧ (addAndCheck (StreamEvent.toolCallRequest name argsJson)
        (reset promptId s0)).2.toolCallRepetitionCount = 1
    ∧ (addAndCheck (StreamEvent.toolCallRequest name argsJson)
        (reset promptId s0)).2.loopDetected = false := by
  simp [addAndCheck, reset, resetContentTracking, checkToolCallLoop, TOOL_CALL_LOOP_THRESHOLD]

/-- Identical tool-call events fed from a state whose stored key already
matches with count c: the i-th further call returns true exactly when
c + 1 + i reaches five. -/
theorem toolCallRun_results (name argsJson : String) :
    ∀ (n : Nat) (s : LoopState) (c : Nat),
      s.lastToolCallKey = some (getToolCallKey name argsJson) →
      s.toolCallRepetitionCount = c →
      s.loopDetected = decide (5 ≤ c) →
      (runEvents (List.replicate n (StreamEvent.toolCallRequest name argsJson)) s).1
        = (List.range n).map (fun i => decide (5 ≤ c + 1 + i)) := by
  intro n
  induction n with
  | zero =>
    intro s c h1 h2 h3
    simp [runEvents]
  | succ n ih =>
    intro s c h1 h2 h3
    rw [List.replicate_succ]
    by_cases hc : 5 ≤ c
    · have hld : s.loopDetected = true := by
        rw [h3]
        simp [hc]
      have hstep : addAndCheck (StreamEvent.toolCallRequest name argsJson) s = (true, s) := by
        simp [addAndCheck, hld]
      simp only [runEvents, hstep]
      rw [ih s c h1 h2 h3]
      rw [List.range_succ_eq_map, List.map_cons, List.map_map]
      refine congrArg₂ List.cons ?_ ?_
      · exact (decide_eq_true (by omega)).symm
      · refine List.map_congr_left ?_
        intro i _
        rw [decide_eq_true (by omega : 5 ≤ c + 1 + i)]
        exact (decide_eq_true (by omega)).symm
    · have hld : s.loopDetected = false := by
        rw [h3]
        simp [hc]
      obtain ⟨hr, hk, hcount, hloop⟩ := addAndCheck_tool_same_key name argsJson s c h1 h2 hld
      simp only [runEvents]
      rw [ih (addAndCheck (StreamEvent.toolCallRequest name argsJson) s).2 (c + 1) hk hcount hloop]
      rw [hr, List.range_succ_eq_map, List.map_cons, List.map_map]
      refine congrArg₂ List.cons ?_ ?_
      · exact decide_eq_decide.mpr (by omega)
      · refine List.map_congr_left ?_
        intro i _
        exact decide_eq_decide.mpr (by omega)

/-- Claim C1: starting from a freshly reset detector, a run of identical
tool-call events (same name and serialized arguments, hence the same
fingerprint, with nothing in between) returns false for the first four
events, true on the fifth, and true for every later event; and a further
reset makes the next identical call return false again. -/
theorem toolCallLoop_threshold (n : Nat) (name argsJson promptId promptId2 : String)
    (s0 : LoopState) :
    (runEvents (List.replicate n (StreamEvent.toolCallRequest name argsJson))
        (reset promptId s0)).1
      = (List.range n).map (fun i => decide (4 ≤ i))
    ∧ (addAndCheck (StreamEvent.toolCallRequest name argsJson)
        (reset promptId2
          (runEvents (List.replicate n (StreamEvent.toolCallRequest name argsJson))
            (reset promptId s0)).2)).1 = false := by
  constructor
  · cases n with
    | zero => simp [runEvents]
    | succ n =>
      rw [List.replicate_succ]
      simp only [runEvents]
      obtain ⟨hr, hk, hcount, hloop⟩ := addAndCheck_tool_fresh name argsJson promptId s0
      have hloop' : (addAndCheck (StreamEvent.toolCallRequest name argsJson)
          (reset promptId s0)).2.loopDetected = decide (5 ≤ 1) := by
        rw [hloop]
        decide
      rw [toolCallRun_results name argsJson n _ 1 hk hcount hloop']
      rw [hr, List.range_succ_eq_map, List.map_cons, List.map_map]
      refine congrArg₂ List.cons ?_ ?_
      · decide
      · refine List.map_congr_left ?_
        intro i _
        exact decide_eq_decide.mpr (by omega)
  · exact (addAndCheck_tool_fresh name argsJson promptId2 _).1

/-- Truncation always leaves the history at or below the cap. -/
theorem truncateAndUpdate_cap (s : LoopState) :
    (truncateAndUpdate s).streamContentHistory.length ≤ MAX_HISTORY_LENGTH := by
  unfold truncateAndUpdate
  split
  · assumption
  · simp only [List.length_drop]
    omega

/-- Chunk analysis never touches the history buffer. -/
theorem analyze_preserves_history (s : LoopState) :
    (analyzeContentChunksForLoop s).2.streamContentHistory = s.streamContentHistory := by
  rcases h : (analyzeChunks s.streamContentHistory s.contentStats s.lastContentIndex).1 with _ | _ <;>
    simp [analyzeContentChunksForLoop, h]

/-- The append-and-analyze core leaves the history at or below the cap
whenever it returns false, because truncation runs on that path. -/
theorem checkContentLoopCore_cap (text : List Char) (s : LoopState)
    (h : (checkContentLoopCore text s).1 = false) :
    (checkContentLoopCore text s).2.streamContentHistory.length ≤ MAX_HISTORY_LENGTH := by
  by_cases hob : hasObviousRepetition text (s.streamContentHistory ++ text) = true
  · exfalso
    simp [checkContentLoopCore, hob] at h
  · simp only [Bool.not_eq_true] at hob
    simp only [checkContentLoopCore, hob, Bool.false_eq_true, if_false]
    rw [analyze_preserves_history]
    exact truncateAndUpdate_cap _

/-- A content event that returns false leaves the history at or below the
cap, whatever path it took. -/
theorem checkContentLoop_cap (text : List Char) (s : LoopState)
    (hlen : s.streamContentHistory.length ≤ MAX_HISTORY_LENGTH)
    (h : (checkContentLoop text s).1 = false) :
    (checkContentLoop text s).2.streamContentHistory.length ≤ MAX_HISTORY_LENGTH := by
  simp only [checkContentLoop] at h ⊢
  split_ifs at h ⊢
  all_goals
    first
      | exact checkContentLoopCore_cap text _ h
      | (simp [resetContentTracking, MAX_HISTORY_LENGTH]
         done)
      | (simp only [MAX_HISTORY_LENGTH] at hlen
         exact hlen)

/-- Claim C4, amended: after any addAndCheck call that returns false the
stream content history never exceeds the 1000-character cap; only the
calls that return true through the obvious-repetition fast path can leave
the buffer above the cap, because they report the loop before the
truncation step (and the sticky flag then stops all further appends). -/
theorem contentHistory_cap_amended (ev : StreamEvent) (s : LoopState)
    (hlen : s.streamContentHistory.length ≤ MAX_HISTORY_LENGTH)
    (hres : (addAndCheck ev s).1 = false) :
    (addAndCheck ev s).2.streamContentHistory.length ≤ MAX_HISTORY_LENGTH := by
  by_cases hld : s.loopDetected
  · simp [addAndCheck, hld] at hres
  · cases ev with
    | toolCallRequest name argsJson =>
      have hgen : ∀ s' : LoopState,
          (checkToolCallLoop name argsJson s').2.streamContentHistory
            = s'.streamContentHistory := by
        intro s'
        simp only [checkToolCallLoop]
        split_ifs <;> rfl
      have hhist : (checkToolCallLoop name argsJson (resetContentTracking s)).2.streamContentHistory
          = [] := by
        rw [hgen]
        rfl
      simp [addAndCheck, hld, hhist, MAX_HISTORY_LENGTH]
    | content text =>
      simp only [addAndCheck, if_neg hld] at hres ⊢
      exact checkContentLoop_cap text s hlen hres
    | other =>
      simp only [addAndCheck, if_neg hld]
      exact hlen

/-- Claim C4, amended, witness: a one-character content event from the
initial state returns false and leaves one character of history. -/
theorem contentHistory_cap_amended_witness :
    (addAndCheck (StreamEvent.content ['x']) initLoopState).2.streamContentHistory.length
      ≤ MAX_HISTORY_LENGTH :=
  contentHistory_cap_amended (StreamEvent.content ['x']) initLoopState (by decide) (by decide)

/-- A content chunk with an even fence count arriving inside a code block
is skipped and leaves the block state on. -/
theorem checkContentLoop_inside (text : List Char) (s : LoopState)
    (hin : s.inCodeBlock = true) (heven : countFences text % 2 = 0) :
    (checkContentLoop text s).1 = false ∧ (checkContentLoop text s).2.inCodeBlock = true := by
  simp only [checkContentLoop, heven]
  split_ifs <;> simp_all [resetContentTracking, hin]

/-- A content chunk with an odd fence count arriving outside a code block
toggles the block state on and is skipped. -/
theorem checkContentLoop_enter (text : List Char) (s : LoopState)
    (hout : s.inCodeBlock = false) (hodd : countFences text % 2 = 1) :
    (checkContentLoop text s).1 = false ∧ (checkContentLoop text s).2.inCodeBlock = true := by
  simp only [checkContentLoop, hodd]
  split_ifs <;> simp_all [resetContentTracking, hout]

/-- A content chunk with an odd fence count arriving inside a code block
closes the block and is still skipped, because the previous state was
inside. -/
theorem checkContentLoop_exit (text : List Char) (s : LoopState)
    (hin : s.inCodeBlock = true) (hodd : countFences text % 2 = 1) :
    (checkContentLoop text s).1 = false := by
  simp only [checkContentLoop, hodd]
  split_ifs <;> simp_all [resetContentTracking, hin]

/-- Splitting a run of events at an append. -/
theorem runEvents_append (as bs : List StreamEvent) (s : LoopState) :
    runEvents (as ++ bs) s
      = ((runEvents as s).1 ++ (runEvents bs (runEvents as s).2).1,
         (runEvents bs (runEvents as s).2).2) := by
  induction as generalizing s with
  | nil => simp [runEvents]
  | cons a as ih => simp [runEvents, ih]

/-- The results of a run starting with one event. -/
theorem runEvents_cons_fst (e : StreamEvent) (rest : List StreamEvent) (s : LoopState) :
    (runEvents (e :: rest) s).1
      = (addAndCheck e s).1 :: (runEvents rest (addAndCheck e s).2).1 := rfl

/-- The results of an appended run. -/
theorem runEvents_append_fst (as bs : List StreamEvent) (s : LoopState) :
    (runEvents (as ++ bs) s).1
      = (runEvents as s).1 ++ (runEvents bs (runEvents as s).2).1 := by
  rw [runEvents_append]

/-- The result of a single-event run. -/
theorem runEvents_single_fst (e : StreamEvent) (s : LoopState) :
    (runEvents [e] s).1 = [(addAndCheck e s).1] := rfl

/-- On a detector with no loop flagged, a content event returns whatever
checkContentLoop returns. -/
theorem addAndCheck_content_fst (text : List Char) (s : LoopState)
    (hld : s.loopDetected = false) :
    (addAndCheck (StreamEvent.content text) s).1 = (checkContentLoop text s).1 := by
  simp [addAndCheck, hld]

/-- Content chunks with even fence counts fed inside a code block all
return false and keep the detector inside the block with no loop flagged. -/
theorem runEvents_inside (cs : List (List Char)) :
    ∀ s : LoopState, (∀ c ∈ cs, countFences c % 2 = 0) →
      s.loopDetected = false → s.inCodeBlock = true →
      (runEvents (cs.map StreamEvent.content) s).1 = List.replicate cs.length false
      ∧ (runEvents (cs.map StreamEvent.content) s).2.loopDetected = false
      ∧ (runEvents (cs.map StreamEvent.content) s).2.inCodeBlock = true := by
  induction cs with
  | nil =>
    intro s _ hld hin
    simp [runEvents, hld, hin]
  | cons c cs ih =>
    intro s hcs hld hin
    obtain ⟨hr, hblock⟩ := checkContentLoop_inside c s hin (hcs c (by simp))
    have hstep1 : (addAndCheck (StreamEvent.content c) s).1 = false := by
      simp [addAndCheck, hld, hr]
    have hstep2 : (addAndCheck (StreamEvent.content c) s).2.loopDetected = false := by
      simp [addAndCheck, hld, hr]
    have hstep3 : (addAndCheck (StreamEvent.content c) s).2.inCodeBlock = true := by
      simp [addAndCheck, hld, hblock]
    obtain ⟨ih1, ih2, ih3⟩ := ih (addAndCheck (StreamEvent.content c) s).2
      (fun d hd => hcs d (by simp [hd])) hstep2 hstep3
    simp only [List.map_cons, runEvents, List.length_cons, List.replicate_succ]
    exact ⟨by rw [hstep1, ih1], ih2, ih3⟩

/-- Claim C6, amended: when the opening and closing fences arrive in
chunks with odd fence counts and every interior chunk carries an even
(typically zero) fence count — in particular when no single chunk contains
both fences — every event of the stream returns false, however repetitive
the interior is. A single chunk containing a complete fenced block escapes
this protection, as the counterexample shows. -/
theorem codeBlock_amended (copen cclose : List Char) (mid : List (List Char)) (s : LoopState)
    (hld : s.loopDetected = false) (hout : s.inCodeBlock = false)
    (hopen : countFences copen % 2 = 1)
    (hmid : ∀ c ∈ mid, countFences c % 2 = 0)
    (hclose : countFences cclose % 2 = 1) :
    (runEvents ((copen :: mid ++ [cclose]).map StreamEvent.content) s).1
      = List.replicate (mid.length + 2) false := by
  obtain ⟨hr, hblock⟩ := checkContentLoop_enter copen s hout hopen
  have hstep1 : (addAndCheck (StreamEvent.content copen) s).1 = false := by
    simp [addAndCheck, hld, hr]
  have hstep2 : (addAndCheck (StreamEvent.content copen) s).2.loopDetected = false := by
    simp [addAndCheck, hld, hr]
  have hstep3 : (addAndCheck (StreamEvent.content copen) s).2.inCodeBlock = true := by
    simp [addAndCheck, hld, hblock]
  obtain ⟨ih1, ih2, ih3⟩ := runEvents_inside mid (addAndCheck (StreamEvent.content copen) s).2
    hmid hstep2 hstep3
  have hsplit : (copen :: mid ++ [cclose]).map StreamEvent.content
      = StreamEvent.content copen
        :: (mid.map StreamEvent.content ++ [StreamEvent.content cclose]) := by
    simp
  have hfinal : (addAndCheck (StreamEvent.content cclose)
      (runEvents (mid.map StreamEvent.content)
        (addAndCheck (StreamEvent.content copen) s).2).2).1 = false := by
    rw [addAndCheck_content_fst _ _ ih2]
    exact checkContentLoop_exit cclose _ ih3 hclose
  rw [hsplit, runEvents_cons_fst, hstep1, runEvents_append_fst, ih1, runEvents_single_fst,
    hfinal]
  rw [List.replicate_succ]
  congr 1
  exact (List.replicate_succ' mid.length false).symm

/-- Claim C6, amended, witness: an opening fence, one interior chunk and a
closing fence from the initial state all return false. -/
theorem codeBlock_amended_witness :
    (runEvents (("```".data :: [['x']] ++ ["```".data]).map StreamEvent.content)
        initLoopState).1
      = List.replicate 3 false :=
  codeBlock_amended "```".data "```".data [['x']] initLoopState
    (by decide) (by decide) (by decide) (by decide) (by decide)

/-- Claim C5: when the history is above the cap, truncation shifts every
stored occurrence index down by exactly the truncation amount, discards
indices that become negative, prunes fingerprints left empty, and every
surviving index addresses the same 20-character window of the truncated
buffer that its original addressed before. The index-validity hypothesis
is the invariant the service maintains: indices are recorded only when a
full window fits at them. -/
theorem truncateAndUpdate_correct (s : LoopState)
    (hlong : MAX_HISTORY_LENGTH < s.streamContentHistory.length)
    (hidx : ∀ p ∈ s.contentStats, ∀ i ∈ p.2,
        0 ≤ i ∧ i.toNat + CONTENT_CHUNK_SIZE ≤ s.streamContentHistory.length) :
    truncationCorrect s := by
  have hne : ¬ s.streamContentHistory.length ≤ MAX_HISTORY_LENGTH := by omega
  have hstats : (truncateAndUpdate s).contentStats
      = s.contentStats.filterMap (fun p =>
          let adjustedIndices :=
            (p.2.map (fun i => i - ((s.streamContentHistory.length - MAX_HISTORY_LENGTH : Nat) : Int))).filter
              (fun i => decide ((0 : Int) ≤ i))
          if adjustedIndices.isEmpty then none else some (p.1, adjustedIndices)) := by
    simp [truncateAndUpdate, hne]
  have hhist : (truncateAndUpdate s).streamContentHistory
      = s.streamContentHistory.drop (s.streamContentHistory.length - MAX_HISTORY_LENGTH) := by
    simp [truncateAndUpdate, hne]
  constructor
  · exact hstats
  · intro p hp j hj
    rw [hstats] at hp
    obtain ⟨q, hq, hqe⟩ := List.mem_filterMap.mp hp
    simp only at hqe
    split at hqe
    · exact absurd hqe (by simp)
    · obtain rfl : (q.1, (q.2.map (fun i => i - ((s.streamContentHistory.length - MAX_HISTORY_LENGTH : Nat) : Int))).filter
          (fun i => decide ((0 : Int) ≤ i))) = p := by
        simpa using hqe
      simp only at hj
      obtain ⟨hjm, hjpos⟩ := List.mem_filter.mp hj
      obtain ⟨i, hi, rfl⟩ := List.mem_map.mp hjm
      obtain ⟨hipos, hibound⟩ := hidx q hq i hi
      have hjpos' : (0 : Int) ≤ i - ((s.streamContentHistory.length - MAX_HISTORY_LENGTH : Nat) : Int) := by
        simpa using hjpos
      refine ⟨hjpos', ?_, ?_⟩
      · rw [hhist]
        simp only [List.length_drop]
        omega
      · rw [hhist]
        unfold chunkAt
        rw [List.drop_drop]
        congr 2
        omega

/-- Claim C5, witness: a 1001-character history with one fingerprint
recorded at offsets zero and five hundred. -/
theorem truncateAndUpdate_correct_witness : truncationCorrect sW5 :=
  truncateAndUpdate_correct sW5 (by decide) (by decide)

/-- The effective limit never exceeds the configured ceiling once the
ceiling is at least one. -/
theorem effLimit_le_max (config : ConcurrencyConfig) (m : PerformanceMetrics)
    (h1 : 1 ≤ config.maxConcurrentRequests) :
    getEffectiveConcurrencyLimit config m ≤ config.maxConcurrentRequests := by
  unfold getEffectiveConcurrencyLimit
  split_ifs
  · exact le_refl _
  · exact Nat.max_le.mpr ⟨h1, by omega⟩
  · exact Nat.max_le.mpr ⟨h1, by omega⟩
  · exact le_refl _

/-- Adding to the set grows it by at most one element. -/
theorem setAdd_length_le (l : List String) (x : String) :
    (setAdd l x).length ≤ l.length + 1 := by
  unfold setAdd
  split_ifs <;> simp

/-- The dispatcher keeps the active count at or below the ceiling and
never touches the config: every admission is guarded by the effective
limit, which is itself bounded by the ceiling. -/
theorem processQueueAux_bounded (fuel : Nat) (now : Int) :
    ∀ s : CMState, s.activeRequests.length ≤ s.config.maxConcurrentRequests →
      1 ≤ s.config.maxConcurrentRequests →
      (processQueueAux fuel now s).activeRequests.length
          ≤ s.config.maxConcurrentRequests
      ∧ (processQueueAux fuel now s).config = s.config := by
  induction fuel with
  | zero =>
    intro s h hm
    exact ⟨h, rfl⟩
  | succ fuel ih =>
    intro s h hm
    rcases hq : s.requestQueue with _ | ⟨q, rest⟩
    · constructor
      · simp only [processQueueAux, hq]
        exact h
      · simp only [processQueueAux, hq]
    · simp only [processQueueAux, hq]
      by_cases hlt :
          s.activeRequests.length < getEffectiveConcurrencyLimit s.config s.performanceMetrics
      · rw [if_pos hlt]
        have heff := effLimit_le_max s.config s.performanceMetrics hm
        have hset := setAdd_length_le s.activeRequests q.id
        have hact : (setAdd s.activeRequests q.id).length
            ≤ s.config.maxConcurrentRequests := by
          omega
        exact ih _ hact hm
      · rw [if_neg hlt]
        exact ⟨h, rfl⟩

/-- Ceiling bound for processQueue. -/
theorem processQueue_bounded (now : Int) (s : CMState)
    (h : s.activeRequests.length ≤ s.config.maxConcurrentRequests)
    (hm : 1 ≤ s.config.maxConcurrentRequests) :
    (processQueue now s).activeRequests.length ≤ s.config.maxConcurrentRequests
    ∧ (processQueue now s).config = s.config :=
  processQueueAux_bounded s.requestQueue.length now s h hm

/-- Ceiling bound for the wrapped reject closure. -/
theorem rejectItem_bounded (id message : String) (now : Int) (s : CMState)
    (h : s.activeRequests.length ≤ s.config.maxConcurrentRequests)
    (hm : 1 ≤ s.config.maxConcurrentRequests) :
    (rejectItem id message now s).activeRequests.length ≤ s.config.maxConcurrentRequests
    ∧ (rejectItem id message now s).config = s.config := by
  unfold rejectItem removeActiveRequest
  refine processQueue_bounded now _ ?_ hm
  have := (List.erase_sublist id s.activeRequests).length_le
  simpa using le_trans this h

/-- Ceiling bound for the wrapped resolve closure. -/
theorem resolveItem_bounded (id : String) (responseTime now : Int) (s : CMState)
    (h : s.activeRequests.length ≤ s.config.maxConcurrentRequests)
    (hm : 1 ≤ s.config.maxConcurrentRequests) :
    (resolveItem id responseTime now s).activeRequests.length ≤ s.config.maxConcurrentRequests
    ∧ (resolveItem id responseTime now s).config = s.config := by
  unfold resolveItem removeActiveRequest
  refine processQueue_bounded now _ ?_ hm
  have := (List.erase_sublist id s.activeRequests).length_le
  simpa using le_trans this h

/-- Ceiling bound for the forEach of clearQueue. -/
theorem clearQueueAux_bounded (now : Int) :
    ∀ (remaining i : Nat) (s : CMState),
      s.activeRequests.length ≤ s.config.maxConcurrentRequests →
      1 ≤ s.config.maxConcurrentRequests →
      (clearQueueAux now remaining i s).activeRequests.length
          ≤ s.config.maxConcurrentRequests
      ∧ (clearQueueAux now remaining i s).config = s.config := by
  intro remaining
  induction remaining with
  | zero =>
    intro i s h hm
    exact ⟨h, rfl⟩
  | succ r ih =>
    intro i s h hm
    simp only [clearQueueAux]
    split_ifs with hlt
    · obtain ⟨h1, h2⟩ := rejectItem_bounded (s.requestQueue.get ⟨i, hlt⟩).id
        "Request queue cleared" now s h hm
      obtain ⟨h3, h4⟩ := ih (i + 1) _ (h2 ▸ h1) (h2 ▸ hm)
      exact ⟨h2 ▸ h3, (h2 ▸ h4 : _)⟩
    · exact ih (i + 1) s h hm

/-- Ceiling bound for executeRequest's enqueue-and-dispatch. -/
theorem stepEnqueue_bounded (id : String) (now : Int) (s : CMState)
    (h : s.activeRequests.length ≤ s.config.maxConcurrentRequests)
    (hm : 1 ≤ s.config.maxConcurrentRequests) :
    (stepEnqueue id now s).activeRequests.length ≤ s.config.maxConcurrentRequests
    ∧ (stepEnqueue id now s).config = s.config := by
  unfold stepEnqueue
  exact processQueue_bounded now _ h hm

/-- Ceiling bound for a queue timeout firing. -/
theorem stepTimeout_bounded (id : String) (now : Int) (s : CMState)
    (h : s.activeRequests.length ≤ s.config.maxConcurrentRequests)
    (hm : 1 ≤ s.config.maxConcurrentRequests) :
    (stepTimeout id now s).activeRequests.length ≤ s.config.maxConcurrentRequests
    ∧ (stepTimeout id now s).config = s.config := by
  unfold stepTimeout removeFromQueue
  exact rejectItem_bounded _ _ now _ h hm

/-- Ceiling bound for an abort firing. -/
theorem stepAbort_bounded (id : String) (now : Int) (s : CMState)
    (h : s.activeRequests.length ≤ s.config.maxConcurrentRequests)
    (hm : 1 ≤ s.config.maxConcurrentRequests) :
    (stepAbort id now s).activeRequests.length ≤ s.config.maxConcurrentRequests
    ∧ (stepAbort id now s).config = s.config := by
  unfold stepAbort removeActiveRequest removeFromQueue
  refine rejectItem_bounded _ _ now _ ?_ hm
  have := (List.erase_sublist id s.activeRequests).length_le
  simpa using le_trans this h

/-- Claim C3, amended: for a manager whose configured ceiling is at least
one and whose config is never mutated at runtime, every reachable state
keeps the active count at or below maxConcurrentRequests, and the
effective limit also never exceeds maxConcurrentRequests; the active count
can however transiently exceed a freshly lowered effective limit, as the
counterexample shows, because throttling only gates new admissions. -/
theorem active_bounded_steady (config : ConcurrencyConfig) (s : CMState)
    (hmax : 1 ≤ config.maxConcurrentRequests) (hreach : ReachableSteady config s) :
    s.activeRequests.length ≤ config.maxConcurrentRequests
    ∧ getEffectiveConcurrencyLimit s.config s.performanceMetrics
        ≤ config.maxConcurrentRequests := by
  have key : s.config = config ∧ s.activeRequests.length ≤ config.maxConcurrentRequests := by
    induction hreach with
    | init => exact ⟨rfl, by simp [initCMState]⟩
    | @enqueue t id now hr ih =>
      obtain ⟨hc, ha⟩ := ih
      obtain ⟨h1, h2⟩ := stepEnqueue_bounded id now t (by rw [hc]; exact ha)
        (by rw [hc]; exact hmax)
      exact ⟨h2.trans hc, by rw [hc] at h1; exact h1⟩
    | @completeSuccess t id responseTime now hr hmem ih =>
      obtain ⟨hc, ha⟩ := ih
      obtain ⟨h1, h2⟩ := resolveItem_bounded id responseTime now t (by rw [hc]; exact ha)
        (by rw [hc]; exact hmax)
      exact ⟨h2.trans hc, by rw [hc] at h1; exact h1⟩
    | @completeError t id message now hr hmem ih =>
      obtain ⟨hc, ha⟩ := ih
      obtain ⟨h1, h2⟩ := rejectItem_bounded id message now t (by rw [hc]; exact ha)
        (by rw [hc]; exact hmax)
      exact ⟨h2.trans hc, by rw [hc] at h1; exact h1⟩
    | @timeoutFires t id now hr hmem ih =>
      obtain ⟨hc, ha⟩ := ih
      obtain ⟨h1, h2⟩ := stepTimeout_bounded id now t (by rw [hc]; exact ha)
        (by rw [hc]; exact hmax)
      exact ⟨h2.trans hc, by rw [hc] at h1; exact h1⟩
    | @abortFires t id now hr ih =>
      obtain ⟨hc, ha⟩ := ih
      obtain ⟨h1, h2⟩ := stepAbort_bounded id now t (by rw [hc]; exact ha)
        (by rw [hc]; exact hmax)
      exact ⟨h2.trans hc, by rw [hc] at h1; exact h1⟩
    | @clearQueueCalled t now hr ih =>
      obtain ⟨hc, ha⟩ := ih
      obtain ⟨h1, h2⟩ := clearQueueAux_bounded now t.requestQueue.length 0 t
        (by rw [hc]; exact ha) (by rw [hc]; exact hmax)
      exact ⟨h2.trans hc, by rw [hc] at h1; exact h1⟩
  obtain ⟨hc, ha⟩ := key
  refine ⟨ha, ?_⟩
  rw [hc]
  exact effLimit_le_max config s.performanceMetrics hmax

/-- Claim C3, amended, witness: the freshly constructed manager with a
ceiling of one. -/
theorem active_bounded_steady_witness :
    (initCMState cfgW3).activeRequests.length ≤ cfgW3.maxConcurrentRequests
    ∧ getEffectiveConcurrencyLimit (initCMState cfgW3).config
        (initCMState cfgW3).performanceMetrics ≤ cfgW3.maxConcurrentRequests :=
  active_bounded_steady cfgW3 _ (by decide) ReachableSteady.init

/-- Recording an error rewrites the error rate to the exact fraction with
numerator 380 n + 20 d and denominator 400 d. -/
theorem recordError_errorRate (m : PerformanceMetrics) :
    (recordError m).errorRate
      = ⟨m.errorRate.num * 19 * 20 + 1 * (m.errorRate.den * 20),
         m.errorRate.den * 20 * 20⟩ := rfl

/-- Recording an error leaves the average response time unchanged. -/
theorem recordError_avgRT (m : PerformanceMetrics) :
    (recordError m).averageResponseTime = m.averageResponseTime := rfl

/-- A nonnegative error rate over a positive denominator that is already
above the 0.2 threshold stays above it after an error is recorded. -/
theorem blt02_recordError (m : PerformanceMetrics)
    (hn : 0 ≤ m.errorRate.num) (hd : 0 < m.errorRate.den)
    (h : Frac.blt ⟨2, 10⟩ m.errorRate = true) :
    Frac.blt ⟨2, 10⟩ (recordError m).errorRate = true := by
  rw [recordError_errorRate]
  simp only [Frac.blt, decide_eq_true_eq] at h ⊢
  omega

/-- Recording an error can only lower the effective limit, never raise it,
once the ceiling is at least one: the error rate only moves up and the
average response time stays put. -/
theorem eff_recordError_le (config : ConcurrencyConfig) (m : PerformanceMetrics)
    (hmax : 1 ≤ config.maxConcurrentRequests)
    (hn : 0 ≤ m.errorRate.num) (hd : 0 < m.errorRate.den) :
    getEffectiveConcurrencyLimit config (recordError m)
      ≤ getEffectiveConcurrencyLimit config m := by
  unfold getEffectiveConcurrencyLimit
  rw [recordError_avgRT]
  by_cases hA : config.adaptiveThrottling
  · simp only [hA, Bool.not_true, Bool.false_eq_true, if_false]
    split_ifs with h1 h2 h3
    all_goals
      first
        | omega
        | exact absurd (blt02_recordError m hn hd (by assumption)) (by assumption)
  · simp [hA]

/-- The dispatcher does nothing when the active count is already at or
above the effective limit. -/
theorem processQueue_noop (now : Int) (s : CMState)
    (h : getEffectiveConcurrencyLimit s.config s.performanceMetrics
      ≤ s.activeRequests.length) :
    processQueue now s = s := by
  unfold processQueue
  rcases hq : s.requestQueue with _ | ⟨q, rest⟩
  · rfl
  · have hnot : ¬ s.activeRequests.length
        < getEffectiveConcurrencyLimit s.config s.performanceMetrics := by
      omega
    simp only [List.length_cons, processQueueAux, hq, hnot, if_false]

/-- When nothing can be admitted and the rejected id is not active, the
wrapped reject closure only records the error and logs the rejection. -/
theorem rejectItem_records_only (id msg : String) (now : Int) (s : CMState)
    (hid : id ∉ s.activeRequests)
    (hmax : 1 ≤ s.config.maxConcurrentRequests)
    (hn : 0 ≤ s.performanceMetrics.errorRate.num)
    (hd : 0 < s.performanceMetrics.errorRate.den)
    (heff : getEffectiveConcurrencyLimit s.config s.performanceMetrics
      ≤ s.activeRequests.length) :
    rejectItem id msg now s
      = { s with performanceMetrics := recordError s.performanceMetrics,
                 eventLog := s.eventLog ++ [CMEvent.promiseRejected id msg] } := by
  unfold rejectItem removeActiveRequest
  simp only [List.erase_of_not_mem hid]
  apply processQueue_noop
  exact le_trans (eff_recordError_le s.config s.performanceMetrics hmax hn hd) heff

/-- The forEach of clearQueue, when the effective limit is already filled:
every visited index rejects its item with the fixed message, the queue and
active set are untouched along the way, and the queue is emptied at the
end. -/
theorem clearQueueAux_spec (now : Int) :
    ∀ (remaining i : Nat) (s : CMState),
      1 ≤ s.config.maxConcurrentRequests →
      0 ≤ s.performanceMetrics.errorRate.num →
      0 < s.performanceMetrics.errorRate.den →
      getEffectiveConcurrencyLimit s.config s.performanceMetrics
        ≤ s.activeRequests.length →
      (∀ q ∈ s.requestQueue, q.id ∉ s.activeRequests) →
      i + remaining = s.requestQueue.length →
      (clearQueueAux now remaining i s).requestQueue = []
      ∧ (clearQueueAux now remaining i s).activeRequests = s.activeRequests
      ∧ (clearQueueAux now remaining i s).eventLog
          = s.eventLog ++ (s.requestQueue.drop i).map
              (fun q => CMEvent.promiseRejected q.id "Request queue cleared") := by
  intro remaining
  induction remaining with
  | zero =>
    intro i s hmax hn hd heff hdisj hlen
    have hdrop : s.requestQueue.drop i = [] := by
      apply List.drop_eq_nil_of_le
      omega
    exact ⟨rfl, rfl, by simp [clearQueueAux, hdrop]⟩
  | succ r ih =>
    intro i s hmax hn hd heff hdisj hlen
    have hlt : i < s.requestQueue.length := by omega
    simp only [clearQueueAux]
    rw [dif_pos hlt]
    have hmem : s.requestQueue.get ⟨i, hlt⟩ ∈ s.requestQueue := List.get_mem _ i hlt
    have hid : (s.requestQueue.get ⟨i, hlt⟩).id ∉ s.activeRequests :=
      hdisj _ hmem
    rw [rejectItem_records_only _ _ now s hid hmax hn hd heff]
    obtain ⟨k1, k2, k3⟩ := ih (i + 1)
      { s with performanceMetrics := recordError s.performanceMetrics,
               eventLog := s.eventLog
                 ++ [CMEvent.promiseRejected (s.requestQueue.get ⟨i, hlt⟩).id
                      "Request queue cleared"] }
      hmax
      (by
        show (0 : Int) ≤ s.performanceMetrics.errorRate.num * 19 * 20
          + 1 * (s.performanceMetrics.errorRate.den * 20)
        omega)
      (by
        show (0 : Int) < s.performanceMetrics.errorRate.den * 20 * 20
        omega)
      (le_trans (eff_recordError_le s.config s.performanceMetrics hmax hn hd) heff)
      hdisj
      (by
        show i + 1 + r = s.requestQueue.length
        omega)
    refine ⟨k1, k2, ?_⟩
    rw [k3]
    have hdropcons : s.requestQueue.drop i
        = s.requestQueue.get ⟨i, hlt⟩ :: s.requestQueue.drop (i + 1) :=
      (List.get_cons_drop s.requestQueue ⟨i, hlt⟩).symm
    dsimp only
    rw [List.append_assoc]
    congr 1
    rw [hdropcons, List.map_cons, List.singleton_append]

/-- Claim C8, amended: whenever the active count is at least the effective
limit at the moment of the call (true in every state reached without an
intervening updateConfig) and no queued id is active, clearQueue rejects
every queued request with the fixed queue-cleared error in queue order,
empties the queue, admits none of them, and leaves the active set
untouched. The error-rate sign conditions are invariants of every run. -/
theorem clearQueue_spec (s : CMState) (now : Int)
    (hmax : 1 ≤ s.config.maxConcurrentRequests)
    (hn : 0 ≤ s.performanceMetrics.errorRate.num)
    (hd : 0 < s.performanceMetrics.errorRate.den)
    (heff : getEffectiveConcurrencyLimit s.config s.performanceMetrics
      ≤ s.activeRequests.length)
    (hdisj : ∀ q ∈ s.requestQueue, q.id ∉ s.activeRequests) :
    (clearQueue now s).requestQueue = []
    ∧ (clearQueue now s).activeRequests = s.activeRequests
    ∧ (clearQueue now s).eventLog
        = s.eventLog ++ s.requestQueue.map
            (fun q => CMEvent.promiseRejected q.id "Request queue cleared") := by
  have := clearQueueAux_spec now s.requestQueue.length 0 s hmax hn hd heff hdisj (by omega)
  simpa [clearQueue] using this

/-- Claim C8, amended, witness: one active request filling the limit and
one queued request; clearQueue rejects the queued one and leaves the
active one alone. -/
theorem clearQueue_spec_witness :
    (clearQueue 0 sW8).requestQueue = []
    ∧ (clearQueue 0 sW8).activeRequests = sW8.activeRequests
    ∧ (clearQueue 0 sW8).eventLog
        = sW8.eventLog ++ sW8.requestQueue.map
            (fun q => CMEvent.promiseRejected q.id "Request queue cleared") :=
  clearQueue_spec sW8 0 (by decide) (by decide) (by decide) (by decide) (by decide)

end QwenCode
